import Mathlib

/-!
Verification of the request-admission and identity pipeline of the
space_backend service (Go), via a shallow embedding in Lean.

Embedded components (each definition mirrors the Go source named in its
doc comment):
* the two HMAC credential verifiers (`pkg/telegram`: `ValidateInitData`
  for Mini App payloads, `ValidateLoginWidget` for Login Widget payloads),
* the membership cache (`pkg/telegram` `MembershipCache`),
* the sliding-window rate limiter (`internal/middleware` `RateLimiter`),
* the admission middleware (`internal/middleware`: `TelegramAuthMiddleware`,
  `RequireChatMembership`, `RefererCheck`),
* the user repository operations (`internal/repository` `GetOrCreate`,
  `SyncFromTelegram`) and config TTL parsing (`internal/config`).

Modelling conventions:
* Machine integers (Go `int64`, `time.Time` instants, `time.Duration`)
  are modelled as `Int` (seconds); overflow never matters at the values
  the claims concern.
* The cryptographic primitives `crypto/sha256` and `crypto/hmac` are
  external library functions; they are taken as abstract function
  parameters `sha : Bytes → Bytes` and `hmac : Bytes → Bytes → Bytes`
  (key, then message).  The claims under verification are about which
  keys and messages are fed to them and how the output is compared,
  not about the internals of SHA-256.
* A parsed `url.Values` payload is modelled as an association list
  `List (String × String)`; `Values.Get` returns the first binding (or
  the empty string), `Values.Del` removes every binding of the key.
  Go's map has unique keys, so theorems that need it carry a
  `Nodup` hypothesis on the key list.
-/

namespace SpaceBackend

/-- Byte strings, as lists of naturals. -/
abbrev Bytes := List Nat

/-- Go `[]byte(s)`: the bytes of a string.  Modelled as the code points of
the characters; this agrees with UTF-8 on ASCII data, and the hash
primitives are abstract, so the exact encoding is immaterial. -/
def strBytes (s : String) : Bytes := s.data.map Char.toNat

/-- One lowercase hexadecimal digit (`0`..`9`, `a`..`f`). -/
def hexDigit (n : Nat) : Char :=
  if n < 10 then Char.ofNat (48 + n) else Char.ofNat (87 + n)

/-- Two lowercase hex digits of one byte. -/
def hexByte (b : Nat) : String :=
  String.mk [hexDigit (b / 16 % 16), hexDigit (b % 16)]

/-- Go `hex.EncodeToString`: lowercase hex of a byte string. -/
def hexEncode (bs : Bytes) : String :=
  String.join (bs.map hexByte)

/-- Decimal digit run parser: `some n` iff the list is a nonempty,
all-digit run. Helper for `parseInt64` below. -/
def parseDigitsAux : List Char → Nat → Option Nat
  | [], acc => some acc
  | c :: cs, acc =>
      if c.isDigit then parseDigitsAux cs (acc * 10 + (c.toNat - 48)) else none

/-- Parse a nonempty decimal digit run. -/
def parseDigits : List Char → Option Nat
  | [] => none
  | cs => parseDigitsAux cs 0

/-- Go `strconv.ParseInt(s, 10, 64)`: optional sign, then a nonempty
digit run.  The int64 range check is not modelled (the claims never
involve values near 2^63). -/
def parseInt64 (s : String) : Option Int :=
  match s.data with
  | '+' :: cs => (parseDigits cs).map Int.ofNat
  | '-' :: cs => (parseDigits cs).map (fun n => -(n : Int))
  | cs => (parseDigits cs).map Int.ofNat

/-- Go `url.Values.Get`: first binding of the key, or `""` if absent. -/
def getV (pairs : List (String × String)) (k : String) : String :=
  (pairs.lookup k).getD ""

/-- Go `url.Values.Del`: remove every binding of the key. -/
def delKey (pairs : List (String × String)) (k : String) : List (String × String) :=
  pairs.filter (fun p => p.1 != k)

/-- Lexicographic `≤` on character lists, by code point (Go compares
strings byte-wise; UTF-8 byte order agrees with code-point order). -/
def listLe : List Char → List Char → Bool
  | [], _ => true
  | _ :: _, [] => false
  | a :: as, b :: bs =>
      if a.toNat < b.toNat then true
      else if b.toNat < a.toNat then false
      else listLe as bs

/-- Lexicographic `≤` on strings. -/
def strLe (a b : String) : Bool := listLe a.data b.data

/-- Predicate `listHasPre pat cs`: `pat` is an initial segment of `cs`. -/
def listHasPre : List Char → List Char → Bool
  | [], _ => true
  | _ :: _, [] => false
  | p :: ps, c :: cs => (p == c) && listHasPre ps cs

/-- Go `strings.HasPrefix(s, pat)`. -/
def strHasPre (s pat : String) : Bool := listHasPre pat.data s.data

/-- Insert a string into a (sorted) list, keeping `strLe` order. -/
def insertSorted (x : String) : List String → List String
  | [] => [x]
  | y :: ys => if strLe x y then x :: y :: ys else y :: insertSorted x ys

/-- Go `sort.Strings`: sort a list of strings lexicographically
(insertion sort; Go's byte-wise order and Lean's code-point order agree
because UTF-8 preserves code-point order). -/
def sortStrings : List String → List String
  | [] => []
  | x :: xs => insertSorted x (sortStrings xs)

/-- The canonical data-check-string both verifiers build: sort the keys,
render each pair as `key=value`, join with a newline
(`pkg/telegram` ValidateInitData / ValidateLoginWidget, data-check-string
construction). -/
def dataCheckString (pairs : List (String × String)) : String :=
  let keys := sortStrings (pairs.map Prod.fst)
  String.intercalate "\n" (keys.map (fun k => k ++ "=" ++ getV pairs k))

/-- Error kinds of the two verifiers (`pkg/telegram` sentinel errors). -/
inductive AuthError where
  | emptyInitData
  | missingHash
  | invalidAuthDate
  | authDateExpired
  | invalidHash
  deriving DecidableEq, Repr

instance {ε α : Type} [DecidableEq ε] [DecidableEq α] : DecidableEq (Except ε α) :=
  fun a b =>
    match a, b with
    | .ok x, .ok y =>
        if h : x = y then isTrue (by rw [h]) else isFalse (fun e => h (Except.ok.inj e))
    | .error x, .error y =>
        if h : x = y then isTrue (by rw [h]) else isFalse (fun e => h (Except.error.inj e))
    | .ok _, .error _ => isFalse (fun e => Except.noConfusion e)
    | .error _, .ok _ => isFalse (fun e => Except.noConfusion e)

/-- Go `ValidateInitData(initData, botToken)` (`pkg/telegram`, Mini App
Protocol A), from the parsed payload onward.  `hmac k m` is
HMAC-SHA256 with key `k` over message `m`; `now` is
`time.Now().Unix()`.  The freshness window is the literal constant 3600
in the source. -/
def validateInitData (hmac : Bytes → Bytes → Bytes)
    (pairs : List (String × String)) (botToken : String) (now : Int) :
    Except AuthError Unit :=
  let hash := getV pairs "hash"
  if hash = "" then .error .missingHash
  else
    let values := delKey pairs "hash"
    let authDateStr := getV values "auth_date"
    if authDateStr = "" then .error .invalidAuthDate
    else
      match parseInt64 authDateStr with
      | none => .error .invalidAuthDate
      | some authDate =>
        if now - authDate > 3600 then .error .authDateExpired
        else
          let dcs := dataCheckString values
          let secretKey := hmac (strBytes "WebAppData") (strBytes botToken)
          let calculatedHashStr := hexEncode (hmac secretKey (strBytes dcs))
          if calculatedHashStr ≠ hash then .error .invalidHash
          else .ok ()

/-- Modelled from the spec: the TTL-parameterized Mini App verifier.
The repository's own tests (`pkg/telegram/auth_test.go`) and router call
`ValidateInitData(initData, botToken, ttl)` and
`TelegramAuthMiddleware(botToken, userService, authDateTTLMiniApp, ...)`,
but that version of the function body is absent from the sources; only
the fixed-3600 version is present.  Per the spec, the freshness window
"defaults to 3600 s but is caller-configurable": identical to
`validateInitData` except that the window is the caller-supplied `ttl`. -/
def validateInitDataTTL (hmac : Bytes → Bytes → Bytes)
    (pairs : List (String × String)) (botToken : String) (ttl now : Int) :
    Except AuthError Unit :=
  let hash := getV pairs "hash"
  if hash = "" then .error .missingHash
  else
    let values := delKey pairs "hash"
    let authDateStr := getV values "auth_date"
    if authDateStr = "" then .error .invalidAuthDate
    else
      match parseInt64 authDateStr with
      | none => .error .invalidAuthDate
      | some authDate =>
        if now - authDate > ttl then .error .authDateExpired
        else
          let dcs := dataCheckString values
          let secretKey := hmac (strBytes "WebAppData") (strBytes botToken)
          let calculatedHashStr := hexEncode (hmac secretKey (strBytes dcs))
          if calculatedHashStr ≠ hash then .error .invalidHash
          else .ok ()

/-- Go `ValidateLoginWidget(initData, botToken, ttl)`
(`pkg/telegram/login_widget.go`, Login Widget Protocol B), from the
parsed payload onward.  `sha` is plain SHA-256. -/
def validateLoginWidget (hmac : Bytes → Bytes → Bytes) (sha : Bytes → Bytes)
    (pairs : List (String × String)) (botToken : String) (ttl now : Int) :
    Except AuthError Unit :=
  let hash := getV pairs "hash"
  if hash = "" then .error .missingHash
  else
    let values := delKey pairs "hash"
    let authDateStr := getV values "auth_date"
    if authDateStr = "" then .error .invalidAuthDate
    else
      match parseInt64 authDateStr with
      | none => .error .invalidAuthDate
      | some authDate =>
        if now - authDate > ttl then .error .authDateExpired
        else
          let dcs := dataCheckString values
          let secretKey := sha (strBytes botToken)
          let calculatedHashStr := hexEncode (hmac secretKey (strBytes dcs))
          if calculatedHashStr ≠ hash then .error .invalidHash
          else .ok ()

/-! ### Rate limiter (`internal/middleware`, unnamed rate-limiter file) -/

/-- Go `Visitor`: per-IP state of the rate limiter. -/
structure Visitor where
  lastSeen : Int
  requests : List Int
  blocked : Bool
  blockTime : Int
  deriving DecidableEq, Repr

/-- Go `RateLimiter`: the visitor map plus the configured rate and
window.  The Go map is modelled as a function to `Option Visitor`. -/
structure RateLimiter where
  visitors : String → Option Visitor
  rate : Nat
  window : Int

/-- Store a visitor under an IP (Go `rl.visitors[ip] = v`). -/
def RateLimiter.setVisitor (rl : RateLimiter) (ip : String) (v : Visitor) :
    RateLimiter :=
  { rl with visitors := fun k => if k = ip then some v else rl.visitors k }

/-- Go `(*RateLimiter).allow(ip)`: the admission decision and the updated
state, with `now` for `time.Now()` (in seconds). -/
def RateLimiter.allow (rl : RateLimiter) (ip : String) (now : Int) :
    Bool × RateLimiter :=
  match rl.visitors ip with
  | none =>
      (true, rl.setVisitor ip { lastSeen := now, requests := [now], blocked := false, blockTime := 0 })
  | some v0 =>
      let v := { v0 with lastSeen := now }
      if v.blocked then
        if now - v.blockTime > rl.window then
          (true, rl.setVisitor ip { v with blocked := false, requests := [now] })
        else
          (false, rl.setVisitor ip v)
      else
        let validRequests := v.requests.filter (fun t => now - t ≤ rl.window)
        if rl.rate ≤ validRequests.length then
          (false, rl.setVisitor ip { v with blocked := true, blockTime := now })
        else
          (true, rl.setVisitor ip { v with requests := validRequests ++ [now] })

/-- Run `allow` for the same IP over a list of request times, collecting
the admission verdicts. -/
def RateLimiter.allowRun (rl : RateLimiter) (ip : String) :
    List Int → List Bool × RateLimiter
  | [] => ([], rl)
  | t :: ts =>
      let r := rl.allow ip t
      let rest := r.2.allowRun ip ts
      (r.1 :: rest.1, rest.2)

/-! ### Membership cache (`pkg/telegram`, unnamed cache file) -/

/-- Go `CacheEntry`: a membership verdict with an absolute expiry. -/
structure CacheEntry where
  isMember : Bool
  expiresAt : Int
  deriving DecidableEq, Repr

/-- Go `MembershipCache`: user id → entry (the map as a function). -/
structure MembershipCache where
  data : Int → Option CacheEntry

/-- Go `(*MembershipCache).Get(userID)`: the verdict and a found flag;
an absent entry, or one whose expiry is strictly in the past
(`time.Now().After(entry.ExpiresAt)`), reads as `(false, false)`. -/
def MembershipCache.get (c : MembershipCache) (userID : Int) (now : Int) :
    Bool × Bool :=
  match c.data userID with
  | none => (false, false)
  | some entry =>
      if now > entry.expiresAt then (false, false)
      else (entry.isMember, true)

/-- Go `(*MembershipCache).Set(userID, isMember, ttl)`: store the verdict
with expiry `now + ttl`, overwriting unconditionally. -/
def MembershipCache.set (c : MembershipCache) (userID : Int) (isMember : Bool)
    (ttl now : Int) : MembershipCache :=
  { data := fun k =>
      if k = userID then some { isMember := isMember, expiresAt := now + ttl }
      else c.data k }

/-! ### User model and repository (`internal/models`, `internal/repository`) -/

/-- Go `models.User`, restricted to the fields the admission pipeline
reads and writes. -/
structure User where
  id : Nat
  telegramID : Int
  username : String
  firstName : String
  lastName : String
  languageCode : String
  role : String
  deriving DecidableEq, Repr

/-- The database of users, in creation order (`gorm` table). -/
abbrev UserDB := List User

/-- Go `GetByTelegramID`: first stored record with the Telegram id. -/
def getByTelegramID (db : UserDB) (telegramID : Int) : Option User :=
  db.find? (fun u => u.telegramID == telegramID)

/-- Go `(*UserRepository).GetOrCreate(telegramID, username, firstName,
lastName, languageCode)` (`internal/repository`, user repository):
return the stored record unchanged if one exists, otherwise create a
fresh record with role `"user"` and append it.  Returns the resulting
user and the resulting database. -/
def getOrCreate (db : UserDB) (telegramID : Int)
    (username firstName lastName languageCode : String) : User × UserDB :=
  match getByTelegramID db telegramID with
  | some user => (user, db)
  | none =>
      let user : User :=
        { id := db.length + 1, telegramID := telegramID, username := username,
          firstName := firstName, lastName := lastName,
          languageCode := languageCode, role := "user" }
      (user, db ++ [user])

/-- Go `(*UserRepository).SyncFromTelegram`: explicitly overwrite the
stored profile fields from fresh Telegram data (error if absent). -/
def syncFromTelegram (db : UserDB) (telegramID : Int)
    (username firstName lastName languageCode : String) :
    Except Unit (User × UserDB) :=
  match getByTelegramID db telegramID with
  | none => .error ()
  | some user =>
      let updated := { user with
        username := username
        firstName := firstName
        lastName := lastName
        languageCode := languageCode }
      .ok (updated, db.map (fun u => if u.id = user.id then updated else u))

/-- Go `(*UserService).SyncTelegramUser` (`internal/service`): despite
its name, the resolve-or-create path — it delegates to `GetOrCreate`
and never updates stored fields. -/
def syncTelegramUser (db : UserDB) (telegramID : Int)
    (username firstName lastName languageCode : String) : User × UserDB :=
  getOrCreate db telegramID username firstName lastName languageCode

/-! ### Middleware (`internal/middleware`) -/

/-- Outcome of one middleware on one request: pass the request on, or
terminate it with an HTTP status code. -/
inductive MwDecision where
  | next
  | reject (status : Nat)
  deriving DecidableEq, Repr

/-- Outcome of the authentication middleware: an attached authenticated
user (context keys `user`/`userID`), or a terminal status. -/
inductive AuthOutcome where
  | authenticated (u : User)
  | reject (status : Nat)
  deriving DecidableEq, Repr

/-- Go `TelegramAuthMiddleware(botToken, userService)`
(`internal/middleware/auth.go`): the per-request decision.
`validate` stands for `telegram.ValidateAndParseInitData` (signature
verification plus identity extraction; its result carries the claimed
Telegram identity fields) and `sync` for
`userService.SyncTelegramUser` (database side effects are folded into
the abstract result). -/
def telegramAuthMiddleware
    (validate : String → String → Except AuthError (Int × String × String × String × String))
    (sync : Int → String → String → String → String → Except Unit User)
    (botToken : String) (initData : String) : AuthOutcome :=
  if initData = "" then .reject 401
  else if initData = "dev_mode" then
    match sync 12345 "devuser" "Dev" "User" "en" with
    | .error _ => .reject 500
    | .ok u => .authenticated u
  else
    match validate initData botToken with
    | .error _ => .reject 401
    | .ok (tid, un, fn, ln, lc) =>
        match sync tid un fn ln lc with
        | .error _ => .reject 500
        | .ok u => .authenticated u

/-- Go `RequireChatMembership(botToken, allowedChatID, environment)`
(`internal/middleware/auth.go`): the per-request decision, with the
external `telegram.CheckUserInChat` network call abstracted as its
outcome `checkResult` (`.error` for a network/timeout failure).
`userInCtx` is the `user` context value set by the auth middleware.
Returns the decision together with the updated membership cache. -/
def requireChatMembership (environment : String) (allowedChatID : Int)
    (userInCtx : Option User) (cache : MembershipCache) (now : Int)
    (checkResult : Except Unit Bool) : MwDecision × MembershipCache :=
  if allowedChatID = 0 then
    if environment ≠ "production" then (.next, cache)
    else (.reject 500, cache)
  else
    match userInCtx with
    | none => (.reject 401, cache)
    | some user =>
        let cached := cache.get user.telegramID now
        if cached.2 then
          if cached.1 = false then (.reject 403, cache)
          else (.next, cache)
        else
          match checkResult with
          | .error _ =>
              if environment = "production" then (.reject 500, cache)
              else (.next, cache)
          | .ok isMember =>
              let cache' := cache.set user.telegramID isMember (5 * 60) now
              if isMember = false then (.reject 403, cache')
              else (.next, cache')

/-- A request as the `RefererCheck` middleware sees it. -/
structure Request where
  method : String
  path : String
  referer : String
  origin : String
  deriving DecidableEq, Repr

/-- Go `RefererCheck(allowedOrigins)` (`internal/middleware/security.go`):
OPTIONS requests, the health path and the public sub-path bypass the
check; requests with neither Referer nor Origin are logged and pass;
otherwise the pair must match the allow-set (Referer by prefix, Origin
by exact value) or the request is rejected with 403. -/
def refererCheck (allowedOrigins : List String) (req : Request) : MwDecision :=
  if req.method = "OPTIONS" then .next
  else if req.path = "/health" ∨ strHasPre req.path "/api/public" then .next
  else if req.referer = "" ∧ req.origin = "" then .next
  else
    let isValid := allowedOrigins.any
      (fun domain => strHasPre req.referer domain || req.origin == domain)
    if isValid = false ∧ (req.referer ≠ "" ∨ req.origin ≠ "") then .reject 403
    else .next

/-! ### Config (`internal/config/config.go`) -/

/-- Go `parseInt64WithDefault`: parse a string or fall back. -/
def parseInt64WithDefault (value : String) (defaultValue : Int) : Int :=
  if value = "" then defaultValue
  else
    match parseInt64 value with
    | none => defaultValue
    | some parsed => parsed

/-- Go `config.Load`, TTL part: `AuthDateTTLMiniApp` from the
`AUTH_DATE_TTL_MINIAPP` environment value (empty when unset), with the
documented default of 3600 seconds. -/
def authDateTTLMiniApp (envValue : String) : Int :=
  parseInt64WithDefault envValue 3600

/-- Modelled from the spec: the admission middleware's Protocol A
verification step with a caller-supplied freshness window, as wired by
`internal/router/router.go` (`TelegramAuthMiddleware(botToken,
userService, authDateTTLMiniApp, authDateTTLLoginWidget)`) and exercised
by `pkg/telegram/auth_test.go` (`ValidateInitData(initData, botToken,
ttl)`); the TTL-accepting middleware body itself is absent from the
sources.  The configured `AuthDateTTLMiniApp` is passed through to the
TTL-parameterized verifier. -/
def middlewareVerifyMiniApp (hmac : Bytes → Bytes → Bytes)
    (pairs : List (String × String)) (botToken : String)
    (ttlMiniApp now : Int) : Except AuthError Unit :=
  validateInitDataTTL hmac pairs botToken ttlMiniApp now

/-! ## Helper lemmas -/

/-- Fact: `getOrCreate` always yields a user carrying the requested Telegram id. -/
theorem getOrCreate_telegramID (db : UserDB) (tid : Int)
    (un fn ln lc : String) :
    (getOrCreate db tid un fn ln lc).1.telegramID = tid := by
  unfold getOrCreate getByTelegramID
  cases hfind : db.find? (fun u => u.telegramID == tid) with
  | none => rfl
  | some u =>
      have := List.find?_some hfind
      simpa using this

/-- Storing a visitor makes it the binding of its IP. -/
theorem setVisitor_self (rl : RateLimiter) (ip : String) (v : Visitor) :
    (rl.setVisitor ip v).visitors ip = some v := by
  simp [RateLimiter.setVisitor]

/-- Storing a visitor does not change the configured rate. -/
theorem setVisitor_rate (rl : RateLimiter) (ip : String) (v : Visitor) :
    (rl.setVisitor ip v).rate = rl.rate := rfl

/-- Storing a visitor does not change the configured window. -/
theorem setVisitor_window (rl : RateLimiter) (ip : String) (v : Visitor) :
    (rl.setVisitor ip v).window = rl.window := rfl

/-- An unseen client's first request is admitted and creates its state
(Go `allow`, `!exists` branch). -/
theorem allow_fresh (rl : RateLimiter) (ip : String) (now : Int)
    (hv : rl.visitors ip = none) :
    rl.allow ip now =
      (true, rl.setVisitor ip
        { lastSeen := now, requests := [now], blocked := false, blockTime := 0 }) := by
  unfold RateLimiter.allow
  rw [hv]

/-- An unblocked client below the rate is admitted and its timestamp
appended (all stored timestamps assumed inside the window, so the prune
keeps them). -/
theorem allow_unblocked_admit (rl : RateLimiter) (ip : String) (v : Visitor)
    (now : Int) (hv : rl.visitors ip = some v) (hb : v.blocked = false)
    (hkeep : ∀ r ∈ v.requests, now - r ≤ rl.window)
    (hlt : v.requests.length < rl.rate) :
    rl.allow ip now =
      (true, rl.setVisitor ip
        { v with lastSeen := now, requests := v.requests ++ [now] }) := by
  unfold RateLimiter.allow
  rw [hv]
  have hfil : v.requests.filter (fun r => now - r ≤ rl.window) = v.requests :=
    List.filter_eq_self.mpr (fun a ha => by simpa using hkeep a ha)
  have hnotge : ¬ rl.rate ≤ v.requests.length := by omega
  simp only [hb, hfil]
  rw [if_neg Bool.false_ne_true, if_neg hnotge]

/-- An unblocked client at (or above) the rate is denied and blocked
with block-start `now`. -/
theorem allow_at_limit_blocks (rl : RateLimiter) (ip : String) (v : Visitor)
    (now : Int) (hv : rl.visitors ip = some v) (hb : v.blocked = false)
    (hkeep : ∀ r ∈ v.requests, now - r ≤ rl.window)
    (hge : rl.rate ≤ v.requests.length) :
    rl.allow ip now =
      (false, rl.setVisitor ip
        { v with lastSeen := now, blocked := true, blockTime := now }) := by
  unfold RateLimiter.allow
  rw [hv]
  have hfil : v.requests.filter (fun r => now - r ≤ rl.window) = v.requests :=
    List.filter_eq_self.mpr (fun a ha => by simpa using hkeep a ha)
  simp only [hb, hfil]
  rw [if_neg Bool.false_ne_true, if_pos hge]

/-- A blocked client inside the cooldown window is denied (only its
last-seen time is refreshed). -/
theorem allow_blocked_denies (rl : RateLimiter) (ip : String) (v : Visitor)
    (now : Int) (hv : rl.visitors ip = some v) (hb : v.blocked = true)
    (hrecent : now - v.blockTime ≤ rl.window) :
    rl.allow ip now = (false, rl.setVisitor ip { v with lastSeen := now }) := by
  unfold RateLimiter.allow
  rw [hv]
  have hno : ¬ now - v.blockTime > rl.window := by omega
  simp only [hb]
  rw [if_pos trivial, if_neg hno]

/-- A blocked client strictly past the cooldown window is admitted,
unblocked, and its timestamp sequence reset to the single admitting
entry. -/
theorem allow_unblock (rl : RateLimiter) (ip : String) (v : Visitor)
    (now : Int) (hv : rl.visitors ip = some v) (hb : v.blocked = true)
    (hpast : now - v.blockTime > rl.window) :
    rl.allow ip now =
      (true, rl.setVisitor ip
        { v with lastSeen := now, blocked := false, requests := [now] }) := by
  unfold RateLimiter.allow
  rw [hv]
  simp only [hb]
  rw [if_pos trivial, if_pos hpast]

/-- Starting unblocked with headroom, a batch of requests all lying in
one window `[lo, lo + window]` (the stored timestamps too) is admitted
in full, the timestamps accumulate in order, and the client stays
unblocked. -/
theorem allowRun_admits_all (ts : List Int) :
    ∀ (rl : RateLimiter) (ip : String) (v : Visitor) (lo : Int),
      rl.visitors ip = some v → v.blocked = false →
      (∀ r ∈ v.requests, lo ≤ r ∧ r ≤ lo + rl.window) →
      (∀ r ∈ ts, lo ≤ r ∧ r ≤ lo + rl.window) →
      v.requests.length + ts.length ≤ rl.rate →
      (rl.allowRun ip ts).1 = List.replicate ts.length true
      ∧ (rl.allowRun ip ts).2.rate = rl.rate
      ∧ (rl.allowRun ip ts).2.window = rl.window
      ∧ ∃ ls, (rl.allowRun ip ts).2.visitors ip =
          some { lastSeen := ls, requests := v.requests ++ ts,
                 blocked := false, blockTime := v.blockTime } := by
  induction ts with
  | nil =>
      intro rl ip v lo hv hb _ _ _
      refine ⟨rfl, rfl, rfl, v.lastSeen, ?_⟩
      show rl.visitors ip = _
      rw [hv]
      obtain ⟨ls, rq, bl, bt⟩ := v
      simp only at hb
      subst hb
      simp
  | cons t ts ih =>
      intro rl ip v lo hv hb hreq hts hlen
      have ht := hts t (by simp)
      have hkeep : ∀ r ∈ v.requests, t - r ≤ rl.window := by
        intro r hr
        have := hreq r hr
        omega
      have hlt : v.requests.length < rl.rate := by
        simp only [List.length_cons] at hlen
        omega
      have hstep := allow_unblocked_admit rl ip v t hv hb hkeep hlt
      have hrest := ih (rl.setVisitor ip
          { v with lastSeen := t, requests := v.requests ++ [t] }) ip
          { v with lastSeen := t, requests := v.requests ++ [t] } lo
        (setVisitor_self _ _ _) (by simpa using hb)
        (by
          intro r hr
          simp only [List.mem_append, List.mem_singleton] at hr
          rcases hr with hr | rfl
          · exact hreq r hr
          · exact ht)
        (by
          intro r hr
          exact hts r (by simp [hr]))
        (by
          simp only [setVisitor_rate, List.length_append, List.length_cons,
            List.length_nil] at hlen ⊢
          omega)
      obtain ⟨h1, h2, h3, ls, h4⟩ := hrest
      simp only [RateLimiter.allowRun, hstep]
      refine ⟨?_, h2, h3, ls, ?_⟩
      · simp [h1, List.replicate_succ]
      · rw [h4]
        simp [List.append_assoc]

/-- While blocked, a batch of requests all inside the cooldown window is
denied in full and the state (timestamps, block-start) is preserved. -/
theorem allowRun_blocked_all (us : List Int) :
    ∀ (rl : RateLimiter) (ip : String) (v : Visitor),
      rl.visitors ip = some v → v.blocked = true →
      (∀ x ∈ us, x - v.blockTime ≤ rl.window) →
      (rl.allowRun ip us).1 = List.replicate us.length false
      ∧ (rl.allowRun ip us).2.rate = rl.rate
      ∧ (rl.allowRun ip us).2.window = rl.window
      ∧ ∃ ls, (rl.allowRun ip us).2.visitors ip =
          some { lastSeen := ls, requests := v.requests,
                 blocked := true, blockTime := v.blockTime } := by
  induction us with
  | nil =>
      intro rl ip v hv hb _
      refine ⟨rfl, rfl, rfl, v.lastSeen, ?_⟩
      show rl.visitors ip = _
      rw [hv]
      obtain ⟨ls, rq, bl, bt⟩ := v
      simp only at hb
      subst hb
      simp
  | cons x us ih =>
      intro rl ip v hv hb hus
      have hstep := allow_blocked_denies rl ip v x hv hb (hus x (by simp))
      have hrest := ih (rl.setVisitor ip { v with lastSeen := x }) ip
          { v with lastSeen := x }
        (setVisitor_self _ _ _) (by simpa using hb)
        (by
          intro y hy
          simpa using hus y (by simp [hy]))
      obtain ⟨h1, h2, h3, ls, h4⟩ := hrest
      simp only [RateLimiter.allowRun, hstep]
      refine ⟨?_, h2, h3, ls, ?_⟩
      · simp [h1, List.replicate_succ]
      · rw [h4]

/-- C3 counterexample: with configured rate `R = 0` the claim, as
stated, requires the first — the `(R+1)`-th — request from an unseen
client to be denied, but `allow` admits every first request from an
unseen client unconditionally. -/
theorem rate_limiter_zero_rate_counterexample :
    (RateLimiter.allow ⟨fun _ => none, 0, 60⟩ "203.0.113.7" 0).1 = true := rfl

/-- C3 (amended: configured rate `R ≥ 1`): from an unseen client, `R`
requests inside one window are all admitted; the `(R+1)`-th request in
the same window is denied and blocks the client with block-start `now`;
while the block is in effect (up to one full window after block-start)
every request is denied; the first request strictly past one window
after block-start is admitted and the stored timestamp sequence is reset
to exactly that single entry. -/
theorem rate_limiter_block_cycle
    (rl : RateLimiter) (ip : String) (ts us : List Int) (lo u u2 : Int)
    (hfresh : rl.visitors ip = none)
    (hlen : ts.length = rl.rate) (hR : 1 ≤ rl.rate)
    (hts : ∀ t ∈ ts, lo ≤ t ∧ t ≤ lo + rl.window)
    (hu : lo ≤ u ∧ u ≤ lo + rl.window)
    (hus : ∀ x ∈ us, x - u ≤ rl.window)
    (hu2 : u2 - u > rl.window) :
    (rl.allowRun ip ts).1 = List.replicate rl.rate true
    ∧ ((rl.allowRun ip ts).2.allow ip u).1 = false
    ∧ (((rl.allowRun ip ts).2.allow ip u).2.visitors ip).map Visitor.blocked =
        some true
    ∧ (((rl.allowRun ip ts).2.allow ip u).2.visitors ip).map Visitor.blockTime =
        some u
    ∧ (((rl.allowRun ip ts).2.allow ip u).2.allowRun ip us).1 =
        List.replicate us.length false
    ∧ ((((rl.allowRun ip ts).2.allow ip u).2.allowRun ip us).2.allow ip u2).1 = true
    ∧ (((((rl.allowRun ip ts).2.allow ip u).2.allowRun ip us).2.allow ip u2).2.visitors
        ip).map Visitor.requests = some [u2]
    ∧ (((((rl.allowRun ip ts).2.allow ip u).2.allowRun ip us).2.allow ip u2).2.visitors
        ip).map Visitor.blocked = some false := by
  cases ts with
  | nil =>
      exfalso
      simp only [List.length_nil] at hlen
      omega
  | cons t0 rest =>
      have h0 := allow_fresh rl ip t0 hfresh
      have hA := allowRun_admits_all rest
        (rl.setVisitor ip { lastSeen := t0, requests := [t0], blocked := false, blockTime := 0 })
        ip { lastSeen := t0, requests := [t0], blocked := false, blockTime := 0 } lo
        (setVisitor_self _ _ _) rfl
        (by
          intro r hr
          have hr0 : r = t0 := by simpa using hr
          rw [hr0]
          exact hts t0 (by simp))
        (by
          intro r hr
          exact hts r (by simp [hr]))
        (by
          simp only [setVisitor_rate, List.length_cons, List.length_nil] at hlen ⊢
          omega)
      obtain ⟨hA1, hA2, hA3, ls1, hA4⟩ := hA
      have hrun1 : (rl.allowRun ip (t0 :: rest)).1 =
          true :: ((rl.setVisitor ip
            { lastSeen := t0, requests := [t0], blocked := false, blockTime := 0 }).allowRun
              ip rest).1 := by
        simp only [RateLimiter.allowRun, h0]
      have hrun2 : (rl.allowRun ip (t0 :: rest)).2 =
          ((rl.setVisitor ip
            { lastSeen := t0, requests := [t0], blocked := false, blockTime := 0 }).allowRun
              ip rest).2 := by
        simp only [RateLimiter.allowRun, h0]
      rw [hrun1, hrun2]
      -- the visitor accumulated after the R admitted requests
      have hB := allow_at_limit_blocks
        ((rl.setVisitor ip
          { lastSeen := t0, requests := [t0], blocked := false, blockTime := 0 }).allowRun
            ip rest).2 ip
        { lastSeen := ls1, requests := [t0] ++ rest, blocked := false, blockTime := 0 }
        u hA4 rfl
        (by
          intro r hr
          rw [hA3, setVisitor_window]
          simp only [List.singleton_append, List.mem_cons] at hr
          have hb2 : lo ≤ r ∧ r ≤ lo + rl.window := by
            rcases hr with rfl | hr
            · exact hts r (by simp)
            · exact hts r (by simp [hr])
          omega)
        (by
          rw [hA2, setVisitor_rate]
          simp only [List.singleton_append, List.length_cons] at hlen ⊢
          omega)
      rw [hB]
      refine ⟨?_, rfl, ?_, ?_, ?_, ?_, ?_, ?_⟩
      · rw [hA1, ← hlen]
        simp [List.replicate_succ]
      · rw [setVisitor_self]
        rfl
      · rw [setVisitor_self]
        rfl
      all_goals {
        have hw2 : ((rl.setVisitor ip
            { lastSeen := t0, requests := [t0], blocked := false, blockTime := 0 }).allowRun
              ip rest).2.window = rl.window := by
          rw [hA3, setVisitor_window]
        have hC := allowRun_blocked_all us
          (((rl.setVisitor ip
            { lastSeen := t0, requests := [t0], blocked := false, blockTime := 0 }).allowRun
              ip rest).2.setVisitor ip
            { lastSeen := u, requests := [t0] ++ rest, blocked := true, blockTime := u })
          ip { lastSeen := u, requests := [t0] ++ rest, blocked := true, blockTime := u }
          (setVisitor_self _ _ _) rfl
          (by
            intro x hx
            rw [setVisitor_window, hw2]
            exact hus x hx)
        obtain ⟨hC1, hC2, hC3, ls2, hC4⟩ := hC
        have hD := allow_unblock
          ((((rl.setVisitor ip
            { lastSeen := t0, requests := [t0], blocked := false, blockTime := 0 }).allowRun
              ip rest).2.setVisitor ip
            { lastSeen := u, requests := [t0] ++ rest, blocked := true, blockTime := u }).allowRun
              ip us).2 ip
          { lastSeen := ls2, requests := [t0] ++ rest, blocked := true, blockTime := u }
          u2 hC4 rfl
          (by
            rw [hC3, setVisitor_window, hw2]
            exact hu2)
        first
        | exact hC1
        | · rw [hD]
        | · rw [hD, setVisitor_self]
            rfl
      }

/-- C3 witness: rate 2, window 60 s — requests at 0 and 1 admitted; at
2 denied and blocked (block-start 2); at 30 and 62 denied while
blocked; at 100 (more than a window past the block) admitted with the
sequence reset to `[100]`. -/
theorem rate_limiter_block_cycle_witness :
    (RateLimiter.allowRun ⟨fun _ => none, 2, 60⟩ "1.2.3.4" [0, 1]).1 =
        List.replicate 2 true
    ∧ ((RateLimiter.allowRun ⟨fun _ => none, 2, 60⟩ "1.2.3.4" [0, 1]).2.allow
        "1.2.3.4" 2).1 = false
    ∧ ((((RateLimiter.allowRun ⟨fun _ => none, 2, 60⟩ "1.2.3.4" [0, 1]).2.allow
        "1.2.3.4" 2).2.visitors "1.2.3.4").map Visitor.blocked) = some true
    ∧ ((((RateLimiter.allowRun ⟨fun _ => none, 2, 60⟩ "1.2.3.4" [0, 1]).2.allow
        "1.2.3.4" 2).2.visitors "1.2.3.4").map Visitor.blockTime) = some 2
    ∧ (((RateLimiter.allowRun ⟨fun _ => none, 2, 60⟩ "1.2.3.4" [0, 1]).2.allow
        "1.2.3.4" 2).2.allowRun "1.2.3.4" [30, 62]).1 = List.replicate 2 false
    ∧ ((((RateLimiter.allowRun ⟨fun _ => none, 2, 60⟩ "1.2.3.4" [0, 1]).2.allow
        "1.2.3.4" 2).2.allowRun "1.2.3.4" [30, 62]).2.allow "1.2.3.4" 100).1 = true
    ∧ (((((RateLimiter.allowRun ⟨fun _ => none, 2, 60⟩ "1.2.3.4" [0, 1]).2.allow
        "1.2.3.4" 2).2.allowRun "1.2.3.4" [30, 62]).2.allow "1.2.3.4" 100).2.visitors
        "1.2.3.4").map Visitor.requests = some [100]
    ∧ (((((RateLimiter.allowRun ⟨fun _ => none, 2, 60⟩ "1.2.3.4" [0, 1]).2.allow
        "1.2.3.4" 2).2.allowRun "1.2.3.4" [30, 62]).2.allow "1.2.3.4" 100).2.visitors
        "1.2.3.4").map Visitor.blocked = some false :=
  rate_limiter_block_cycle ⟨fun _ => none, 2, 60⟩ "1.2.3.4" [0, 1] [30, 62] 0 2 100
    rfl (by decide) (by decide) (by decide) (by decide) (by decide) (by decide)

/-- Lemma: `insertSorted` only rearranges: the result is a permutation of
consing the element. -/
theorem insertSorted_perm (x : String) (l : List String) :
    (insertSorted x l).Perm (x :: l) := by
  induction l with
  | nil => exact List.Perm.refl _
  | cons y ys ih =>
      unfold insertSorted
      by_cases h : strLe x y = true
      · rw [if_pos h]
      · rw [if_neg h]
        exact (ih.cons y).trans (List.Perm.swap x y ys)

/-- Lemma: `sortStrings` only rearranges its input. -/
theorem sortStrings_perm (l : List String) : (sortStrings l).Perm l := by
  induction l with
  | nil => exact List.Perm.refl _
  | cons x xs ih =>
      unfold sortStrings
      exact (insertSorted_perm x (sortStrings xs)).trans (ih.cons x)

/-- Lemma: `listLe` is total. -/
theorem listLe_total (as : List Char) : ∀ bs,
    listLe as bs = true ∨ listLe bs as = true := by
  induction as with
  | nil => intro bs; left; rfl
  | cons a as ih =>
      intro bs
      cases bs with
      | nil => right; rfl
      | cons b bs =>
          simp only [listLe]
          rcases Nat.lt_trichotomy a.toNat b.toNat with h | h | h
          · left; rw [if_pos h]
          · rw [if_neg (by omega), if_neg (by omega), if_neg (by omega),
              if_neg (by omega)]
            exact ih bs
          · right; rw [if_pos h]

/-- Lemma: `strLe` is total. -/
theorem strLe_total (a b : String) (h : strLe a b = false) : strLe b a = true := by
  rcases listLe_total a.data b.data with h1 | h1
  · exact absurd h1 (by simp [strLe] at h; simp [h])
  · exact h1

/-- Lemma: `listLe` is transitive. -/
theorem listLe_trans (as : List Char) : ∀ bs cs,
    listLe as bs = true → listLe bs cs = true → listLe as cs = true := by
  induction as with
  | nil => intro bs cs _ _; rfl
  | cons a as ih =>
      intro bs cs h1 h2
      cases bs with
      | nil => exact absurd h1 (by simp [listLe])
      | cons b bs =>
          cases cs with
          | nil => exact absurd h2 (by simp [listLe])
          | cons c cs =>
              simp only [listLe] at h1 h2 ⊢
              rcases Nat.lt_trichotomy a.toNat b.toNat with hab | hab | hab
              · rcases Nat.lt_trichotomy b.toNat c.toNat with hbc | hbc | hbc
                · rw [if_pos (by omega)]
                · rw [if_pos (by omega)]
                · rw [if_neg (by omega), if_pos hbc] at h2
                  exact absurd h2 (by simp)
              · rw [if_neg (by omega), if_neg (by omega)] at h1
                rcases Nat.lt_trichotomy b.toNat c.toNat with hbc | hbc | hbc
                · rw [if_pos (by omega)]
                · rw [if_neg (by omega), if_neg (by omega)] at h2
                  rw [if_neg (by omega), if_neg (by omega)]
                  exact ih bs cs h1 h2
                · rw [if_neg (by omega), if_pos hbc] at h2
                  exact absurd h2 (by simp)
              · rw [if_neg (by omega), if_pos hab] at h1
                exact absurd h1 (by simp)

/-- Lemma: `strLe` is transitive. -/
theorem strLe_trans (a b c : String) (h1 : strLe a b = true)
    (h2 : strLe b c = true) : strLe a c = true :=
  listLe_trans a.data b.data c.data h1 h2

/-- Membership in an insertion. -/
theorem mem_insertSorted {z x : String} {l : List String} :
    z ∈ insertSorted x l ↔ z = x ∨ z ∈ l :=
  (insertSorted_perm x l).mem_iff.trans List.mem_cons

/-- Insertion preserves sortedness. -/
theorem insertSorted_pairwise (x : String) (l : List String)
    (h : l.Pairwise (fun a b => strLe a b = true)) :
    (insertSorted x l).Pairwise (fun a b => strLe a b = true) := by
  induction l with
  | nil => simp [insertSorted]
  | cons y ys ih =>
      rcases List.pairwise_cons.mp h with ⟨hy, hys⟩
      unfold insertSorted
      by_cases hxy : strLe x y = true
      · rw [if_pos hxy]
        refine List.pairwise_cons.mpr ⟨?_, h⟩
        intro z hz
        rcases List.mem_cons.mp hz with rfl | hzys
        · exact hxy
        · exact strLe_trans x y z hxy (hy z hzys)
      · rw [if_neg hxy]
        refine List.pairwise_cons.mpr ⟨?_, ih hys⟩
        intro z hz
        rcases mem_insertSorted.mp hz with heq | hzys
        · rw [heq]
          exact strLe_total x y (by simpa using hxy)
        · exact hy z hzys

/-- Lemma: `sortStrings` sorts (pairwise `strLe`). -/
theorem sortStrings_pairwise (l : List String) :
    (sortStrings l).Pairwise (fun a b => strLe a b = true) := by
  induction l with
  | nil => exact List.Pairwise.nil
  | cons x xs ih =>
      unfold sortStrings
      exact insertSorted_pairwise x _ ih

/-- The keys surviving `delKey` are the original keys minus the deleted
one. -/
theorem map_fst_delKey (pairs : List (String × String)) (k : String) :
    (delKey pairs k).map Prod.fst = (pairs.map Prod.fst).filter (fun s => s != k) := by
  unfold delKey
  induction pairs with
  | nil => rfl
  | cons p ps ih =>
      simp only [List.filter_cons, List.map_cons]
      by_cases h : p.1 = k
      · simp [h, ih]
      · simp [h, ih]

/-- Deleting one key does not change lookups of another. -/
theorem lookup_delKey (pairs : List (String × String)) (k j : String)
    (h : j ≠ k) : (delKey pairs k).lookup j = pairs.lookup j := by
  unfold delKey
  induction pairs with
  | nil => rfl
  | cons p ps ih =>
      rcases p with ⟨a, b⟩
      simp only [List.filter_cons]
      by_cases hak : a = k
      · have hja : (j == a) = false := by
          simp [hak, h]
        have hjk : (j == k) = false := by
          simp [h]
        simp [hak, List.lookup, hja, hjk, ih]
      · simp only [show ((a, b).1 != k) = true by simpa using hak, if_pos]
        simp [List.lookup, ih]

/-- Lemma: `Values.Get` of a non-deleted key is unchanged by `Values.Del`. -/
theorem getV_delKey (pairs : List (String × String)) (k j : String)
    (h : j ≠ k) : getV (delKey pairs k) j = getV pairs j := by
  unfold getV
  rw [lookup_delKey pairs k j h]

/-- C2: the canonical message both verifiers authenticate —
`dataCheckString` of the payload with the hash field deleted — is built
from exactly the non-hash key/value pairs: its key list is sorted
(lexicographic `strLe`), is a permutation of the payload's keys with
`"hash"` removed, never contains `"hash"`, and each line renders the
pair as `key=value` with the value taken from the original payload,
joined by single newlines. -/
theorem data_check_string_canonical (pairs : List (String × String)) :
    List.Pairwise (fun a b => strLe a b = true)
        (sortStrings ((delKey pairs "hash").map Prod.fst))
    ∧ (sortStrings ((delKey pairs "hash").map Prod.fst)).Perm
        ((pairs.map Prod.fst).filter (fun s => s != "hash"))
    ∧ "hash" ∉ sortStrings ((delKey pairs "hash").map Prod.fst)
    ∧ dataCheckString (delKey pairs "hash") =
        String.intercalate "\n"
          ((sortStrings ((delKey pairs "hash").map Prod.fst)).map
            (fun k => k ++ "=" ++ getV pairs k)) := by
  have hperm : (sortStrings ((delKey pairs "hash").map Prod.fst)).Perm
      ((pairs.map Prod.fst).filter (fun s => s != "hash")) := by
    rw [map_fst_delKey]
    exact sortStrings_perm _
  have hmemne : ∀ k ∈ sortStrings ((delKey pairs "hash").map Prod.fst),
      k ≠ "hash" := by
    intro k hk
    have hkf := hperm.mem_iff.mp hk
    have hne := (List.mem_filter.mp hkf).2
    simpa using hne
  refine ⟨sortStrings_pairwise _, hperm, ?_, ?_⟩
  · intro hmem
    exact (hmemne _ hmem) rfl
  · unfold dataCheckString
    apply congrArg (String.intercalate "\n")
    apply List.map_congr_left
    intro k hk
    rw [getV_delKey pairs "hash" k (hmemne k hk)]

/-- With the hash field present and the auth_date field parsing to `t`,
`validateInitData` reduces to its freshness check (fixed 3600 s window)
followed by the hash comparison. -/
theorem validateInitData_step (hmac : Bytes → Bytes → Bytes)
    (pairs : List (String × String)) (token : String) (now t : Int)
    (hhash : getV pairs "hash" ≠ "")
    (hparse : parseInt64 (getV (delKey pairs "hash") "auth_date") = some t) :
    validateInitData hmac pairs token now =
      (if now - t > 3600 then .error .authDateExpired
       else if hexEncode (hmac (hmac (strBytes "WebAppData") (strBytes token))
                (strBytes (dataCheckString (delKey pairs "hash")))) ≠ getV pairs "hash"
            then .error .invalidHash
            else .ok ()) := by
  have hne : getV (delKey pairs "hash") "auth_date" ≠ "" := by
    intro h
    have hnone : parseInt64 "" = none := by decide
    rw [h, hnone] at hparse
    exact Option.noConfusion hparse
  unfold validateInitData
  rw [if_neg hhash, if_neg hne, hparse]

/-- Same reduction for the spec-modelled TTL-parameterized Mini App
verifier. -/
theorem validateInitDataTTL_step (hmac : Bytes → Bytes → Bytes)
    (pairs : List (String × String)) (token : String) (ttl now t : Int)
    (hhash : getV pairs "hash" ≠ "")
    (hparse : parseInt64 (getV (delKey pairs "hash") "auth_date") = some t) :
    validateInitDataTTL hmac pairs token ttl now =
      (if now - t > ttl then .error .authDateExpired
       else if hexEncode (hmac (hmac (strBytes "WebAppData") (strBytes token))
                (strBytes (dataCheckString (delKey pairs "hash")))) ≠ getV pairs "hash"
            then .error .invalidHash
            else .ok ()) := by
  have hne : getV (delKey pairs "hash") "auth_date" ≠ "" := by
    intro h
    have hnone : parseInt64 "" = none := by decide
    rw [h, hnone] at hparse
    exact Option.noConfusion hparse
  unfold validateInitDataTTL
  rw [if_neg hhash, if_neg hne, hparse]

/-- Same reduction for the Login Widget verifier (caller-supplied
window, key = SHA-256 of the token). -/
theorem validateLoginWidget_step (hmac : Bytes → Bytes → Bytes)
    (sha : Bytes → Bytes)
    (pairs : List (String × String)) (token : String) (ttl now t : Int)
    (hhash : getV pairs "hash" ≠ "")
    (hparse : parseInt64 (getV (delKey pairs "hash") "auth_date") = some t) :
    validateLoginWidget hmac sha pairs token ttl now =
      (if now - t > ttl then .error .authDateExpired
       else if hexEncode (hmac (sha (strBytes token))
                (strBytes (dataCheckString (delKey pairs "hash")))) ≠ getV pairs "hash"
            then .error .invalidHash
            else .ok ()) := by
  have hne : getV (delKey pairs "hash") "auth_date" ≠ "" := by
    intro h
    have hnone : parseInt64 "" = none := by decide
    rw [h, hnone] at hparse
    exact Option.noConfusion hparse
  unfold validateLoginWidget
  rw [if_neg hhash, if_neg hne, hparse]

/-! ## Claims -/

/-- C1: the Mini App verifier's expected signature is the lowercase-hex
HMAC-SHA256 of the canonical data-check-string keyed by
HMAC-SHA256(key = "WebAppData", message = token), while the Login Widget
verifier keys the outer HMAC-SHA256 with the plain SHA-256 digest of the
token; with the other checks passing, each verifier succeeds exactly
when the supplied hash equals its expected hex digest. -/
theorem validate_hash_key_derivation (hmac : Bytes → Bytes → Bytes)
    (sha : Bytes → Bytes)
    (pairs : List (String × String)) (token : String) (ttl now t : Int)
    (hhash : getV pairs "hash" ≠ "")
    (hparse : parseInt64 (getV (delKey pairs "hash") "auth_date") = some t)
    (hfreshA : now - t ≤ 3600) (hfreshB : now - t ≤ ttl) :
    (validateInitData hmac pairs token now = .ok () ↔
      getV pairs "hash" =
        hexEncode (hmac (hmac (strBytes "WebAppData") (strBytes token))
          (strBytes (dataCheckString (delKey pairs "hash")))))
    ∧ (validateLoginWidget hmac sha pairs token ttl now = .ok () ↔
        getV pairs "hash" =
          hexEncode (hmac (sha (strBytes token))
            (strBytes (dataCheckString (delKey pairs "hash"))))) := by
  constructor
  · rw [validateInitData_step hmac pairs token now t hhash hparse,
      if_neg (by omega)]
    by_cases hc : hexEncode (hmac (hmac (strBytes "WebAppData") (strBytes token))
        (strBytes (dataCheckString (delKey pairs "hash")))) = getV pairs "hash"
    · simp [hc, eq_comm]
    · simp only [ne_eq, hc, not_false_eq_true, if_pos]
      constructor
      · intro h
        exact Except.noConfusion h
      · intro h
        exact absurd h.symm hc
  · rw [validateLoginWidget_step hmac sha pairs token ttl now t hhash hparse,
      if_neg (by omega)]
    by_cases hc : hexEncode (hmac (sha (strBytes token))
        (strBytes (dataCheckString (delKey pairs "hash")))) = getV pairs "hash"
    · simp [hc, eq_comm]
    · simp only [ne_eq, hc, not_false_eq_true, if_pos]
      constructor
      · intro h
        exact Except.noConfusion h
      · intro h
        exact absurd h.symm hc

/-- C1 witness: a concrete payload, token and hash-function
instantiation (`hmac k m = k ++ m`, `sha = reverse`) at which the
hypotheses hold and the equivalences are realized. -/
theorem validate_hash_key_derivation_witness :
    (validateInitData (fun k m => k ++ m)
        [("auth_date", "10"), ("hash", "zz")] "tok" 12 = .ok () ↔
      getV [("auth_date", "10"), ("hash", "zz")] "hash" =
        hexEncode ((fun (k m : Bytes) => k ++ m)
          ((fun (k m : Bytes) => k ++ m) (strBytes "WebAppData") (strBytes "tok"))
          (strBytes (dataCheckString (delKey [("auth_date", "10"), ("hash", "zz")] "hash")))))
    ∧ (validateLoginWidget (fun k m => k ++ m) List.reverse
        [("auth_date", "10"), ("hash", "zz")] "tok" 5 12 = .ok () ↔
        getV [("auth_date", "10"), ("hash", "zz")] "hash" =
          hexEncode ((fun (k m : Bytes) => k ++ m)
            (List.reverse (strBytes "tok"))
            (strBytes (dataCheckString (delKey [("auth_date", "10"), ("hash", "zz")] "hash"))))) :=
  validate_hash_key_derivation (fun k m => k ++ m) List.reverse
    [("auth_date", "10"), ("hash", "zz")] "tok" 5 12 10
    (by decide) (by decide) (by decide) (by decide)

/-- C4: a credential whose auth_date `t` satisfies `now - t = w` passes
the freshness check and one with `now - t = w + 1` fails it with the
`ErrAuthDateExpired` kind, in the Login Widget verifier for every
window `w`, in the TTL-parameterized Mini App verifier for every window
`w`, and in the fixed-window Mini App verifier at its window 3600. -/
theorem auth_date_boundary (hmac : Bytes → Bytes → Bytes)
    (sha : Bytes → Bytes)
    (pairs : List (String × String)) (token : String) (w now t : Int)
    (hhash : getV pairs "hash" ≠ "")
    (hparse : parseInt64 (getV (delKey pairs "hash") "auth_date") = some t) :
    (now - t = w →
      validateLoginWidget hmac sha pairs token w now ≠ .error .authDateExpired)
    ∧ (now - t = w + 1 →
      validateLoginWidget hmac sha pairs token w now = .error .authDateExpired)
    ∧ (now - t = w →
      validateInitDataTTL hmac pairs token w now ≠ .error .authDateExpired)
    ∧ (now - t = w + 1 →
      validateInitDataTTL hmac pairs token w now = .error .authDateExpired)
    ∧ (now - t = 3600 →
      validateInitData hmac pairs token now ≠ .error .authDateExpired)
    ∧ (now - t = 3601 →
      validateInitData hmac pairs token now = .error .authDateExpired) := by
  refine ⟨?_, ?_, ?_, ?_, ?_, ?_⟩
  · intro hb
    rw [validateLoginWidget_step hmac sha pairs token w now t hhash hparse,
      if_neg (by omega)]
    split
    · exact fun h => by simpa using Except.error.inj h
    · exact fun h => Except.noConfusion h
  · intro hb
    rw [validateLoginWidget_step hmac sha pairs token w now t hhash hparse,
      if_pos (by omega)]
  · intro hb
    rw [validateInitDataTTL_step hmac pairs token w now t hhash hparse,
      if_neg (by omega)]
    split
    · exact fun h => by simpa using Except.error.inj h
    · exact fun h => Except.noConfusion h
  · intro hb
    rw [validateInitDataTTL_step hmac pairs token w now t hhash hparse,
      if_pos (by omega)]
  · intro hb
    rw [validateInitData_step hmac pairs token now t hhash hparse,
      if_neg (by omega)]
    split
    · exact fun h => by simpa using Except.error.inj h
    · exact fun h => Except.noConfusion h
  · intro hb
    rw [validateInitData_step hmac pairs token now t hhash hparse,
      if_pos (by omega)]

/-- C4 witness: a concrete payload with auth_date 10, window 5, read at
`now = 15` (age exactly the window) and `now = 16` (one past it). -/
theorem auth_date_boundary_witness :
    ((15 : Int) - 10 = 5 →
      validateLoginWidget (fun k m => k ++ m) List.reverse
        [("auth_date", "10"), ("hash", "zz")] "tok" 5 15 ≠ .error .authDateExpired)
    ∧ ((15 : Int) - 10 = 5 + 1 →
      validateLoginWidget (fun k m => k ++ m) List.reverse
        [("auth_date", "10"), ("hash", "zz")] "tok" 5 15 = .error .authDateExpired)
    ∧ ((15 : Int) - 10 = 5 →
      validateInitDataTTL (fun k m => k ++ m)
        [("auth_date", "10"), ("hash", "zz")] "tok" 5 15 ≠ .error .authDateExpired)
    ∧ ((15 : Int) - 10 = 5 + 1 →
      validateInitDataTTL (fun k m => k ++ m)
        [("auth_date", "10"), ("hash", "zz")] "tok" 5 15 = .error .authDateExpired)
    ∧ ((15 : Int) - 10 = 3600 →
      validateInitData (fun k m => k ++ m)
        [("auth_date", "10"), ("hash", "zz")] "tok" 15 ≠ .error .authDateExpired)
    ∧ ((15 : Int) - 10 = 3601 →
      validateInitData (fun k m => k ++ m)
        [("auth_date", "10"), ("hash", "zz")] "tok" 15 = .error .authDateExpired) :=
  auth_date_boundary (fun k m => k ++ m) List.reverse
    [("auth_date", "10"), ("hash", "zz")] "tok" 5 15 10 (by decide) (by decide)

/-- C7: the Protocol A freshness window defaults to 3600 s
(`parseInt64WithDefault` on an unset `AUTH_DATE_TTL_MINIAPP`), and the
middleware's Protocol A verification uses the configured
`AuthDateTTLMiniApp` value as its freshness window: a credential is
rejected as expired exactly when its age exceeds that configured value,
whatever it is. -/
theorem miniapp_ttl_configurable (hmac : Bytes → Bytes → Bytes)
    (pairs : List (String × String)) (token : String) (envValue : String)
    (now t : Int)
    (hhash : getV pairs "hash" ≠ "")
    (hparse : parseInt64 (getV (delKey pairs "hash") "auth_date") = some t) :
    authDateTTLMiniApp "" = 3600
    ∧ middlewareVerifyMiniApp hmac pairs token (authDateTTLMiniApp envValue) now =
        validateInitDataTTL hmac pairs token (authDateTTLMiniApp envValue) now
    ∧ (now - t > authDateTTLMiniApp envValue →
        middlewareVerifyMiniApp hmac pairs token (authDateTTLMiniApp envValue) now =
          .error .authDateExpired)
    ∧ (now - t ≤ authDateTTLMiniApp envValue →
        middlewareVerifyMiniApp hmac pairs token (authDateTTLMiniApp envValue) now ≠
          .error .authDateExpired) := by
  refine ⟨by decide, rfl, ?_, ?_⟩
  · intro hname
    unfold middlewareVerifyMiniApp
    rw [validateInitDataTTL_step hmac pairs token (authDateTTLMiniApp envValue) now t
      hhash hparse, if_pos hname]
  · intro hname
    unfold middlewareVerifyMiniApp
    rw [validateInitDataTTL_step hmac pairs token (authDateTTLMiniApp envValue) now t
      hhash hparse, if_neg (by omega)]
    split
    · exact fun h => by simpa using Except.error.inj h
    · exact fun h => Except.noConfusion h

/-- C7 witness: with `AUTH_DATE_TTL_MINIAPP=7200` configured, a
credential of age 7000 s is not rejected as expired (it would be under
the fixed 3600 s constant), and one of age 7201 s is. -/
theorem miniapp_ttl_configurable_witness :
    (authDateTTLMiniApp "" = 3600
    ∧ middlewareVerifyMiniApp (fun k m => k ++ m)
        [("auth_date", "10"), ("hash", "zz")] "tok" (authDateTTLMiniApp "7200") 7010 =
        validateInitDataTTL (fun k m => k ++ m)
          [("auth_date", "10"), ("hash", "zz")] "tok" (authDateTTLMiniApp "7200") 7010
    ∧ ((7010 : Int) - 10 > authDateTTLMiniApp "7200" →
        middlewareVerifyMiniApp (fun k m => k ++ m)
          [("auth_date", "10"), ("hash", "zz")] "tok" (authDateTTLMiniApp "7200") 7010 =
          .error .authDateExpired)
    ∧ ((7010 : Int) - 10 ≤ authDateTTLMiniApp "7200" →
        middlewareVerifyMiniApp (fun k m => k ++ m)
          [("auth_date", "10"), ("hash", "zz")] "tok" (authDateTTLMiniApp "7200") 7010 ≠
          .error .authDateExpired)) :=
  miniapp_ttl_configurable (fun k m => k ++ m)
    [("auth_date", "10"), ("hash", "zz")] "tok" "7200" 7010 10 (by decide) (by decide)

/-- C5: for every identity id, verdict v and ttl > 0, immediately after
`Set(id, v, ttl)` a `Get(id)` returns `(v, true)`; once the expiry
instant `set-time + ttl` is in the past, `Get(id)` returns
`(false, false)`; and an absent entry also reads `(false, false)` —
never a stored negative verdict. -/
theorem membership_cache_set_get (c d : MembershipCache) (id jd : Int)
    (v : Bool) (ttl now later t2 : Int)
    (httl : 0 < ttl) (hlater : now + ttl < later)
    (habsent : d.data jd = none) :
    (c.set id v ttl now).get id now = (v, true)
    ∧ (c.set id v ttl now).get id later = (false, false)
    ∧ d.get jd t2 = (false, false) := by
  refine ⟨?_, ?_, ?_⟩
  · have h : ¬ now > now + ttl := by omega
    simp [MembershipCache.set, MembershipCache.get, h]
  · have h : later > now + ttl := by omega
    simp [MembershipCache.set, MembershipCache.get, h]
  · simp [MembershipCache.get, habsent]

/-- C5 witness: a concrete round trip (id 7, ttl 300 s, set at 100,
read back at 100 and at 401). -/
theorem membership_cache_set_get_witness :
    ((MembershipCache.set ⟨fun _ => none⟩ 7 true 300 100).get 7 100 = (true, true)
      ∧ (MembershipCache.set ⟨fun _ => none⟩ 7 true 300 100).get 7 401 = (false, false)
      ∧ (MembershipCache.mk (fun _ => none)).get 9 0 = (false, false)) :=
  membership_cache_set_get ⟨fun _ => none⟩ ⟨fun _ => none⟩ 7 9 true 300 100 401 0
    (by decide) (by decide) rfl

/-- C6: when the membership check errors (network/timeout) and the
verdict is not cached, the decision is governed by the environment flag:
`"production"` rejects with 500 (fail closed), every other environment
lets the request proceed (fail open). -/
theorem membership_check_failure_policy (env : String) (chatID : Int)
    (u : User) (cache : MembershipCache) (now : Int)
    (hchat : chatID ≠ 0)
    (hmiss : (cache.get u.telegramID now).2 = false) :
    requireChatMembership env chatID (some u) cache now (.error ()) =
      (if env = "production" then (.reject 500, cache) else (.next, cache)) := by
  unfold requireChatMembership
  rw [if_neg hchat]
  simp only [hmiss]
  by_cases henv : env = "production" <;> simp [henv]

/-- C6 witness: a concrete uncached user and failing check, in the
strict environment (rejected 500) and a permissive one (passed on). -/
theorem membership_check_failure_policy_witness :
    (requireChatMembership "production" 5
        (some ⟨1, 99, "u", "f", "l", "en", "user"⟩) ⟨fun _ => none⟩ 0 (.error ()) =
      (if "production" = "production"
       then (MwDecision.reject 500, MembershipCache.mk (fun _ => none))
       else (MwDecision.next, MembershipCache.mk (fun _ => none))))
    ∧ (requireChatMembership "development" 5
        (some ⟨1, 99, "u", "f", "l", "en", "user"⟩) ⟨fun _ => none⟩ 0 (.error ()) =
      (if "development" = "production"
       then (MwDecision.reject 500, MembershipCache.mk (fun _ => none))
       else (MwDecision.next, MembershipCache.mk (fun _ => none)))) :=
  ⟨membership_check_failure_policy "production" 5 ⟨1, 99, "u", "f", "l", "en", "user"⟩
      ⟨fun _ => none⟩ 0 (by decide) rfl,
   membership_check_failure_policy "development" 5 ⟨1, 99, "u", "f", "l", "en", "user"⟩
      ⟨fun _ => none⟩ 0 (by decide) rfl⟩

/-- C9: for a request that is not OPTIONS and not addressed to the
health path or the public sub-path: with both Referer and Origin absent
it passes (logged only); with either present it passes exactly when some
allowed origin matches — the Referer by prefix or the Origin by exact
equality — and is otherwise rejected with 403. -/
theorem referer_check_policy (allowed : List String) (req : Request)
    (hm : req.method ≠ "OPTIONS") (hh : req.path ≠ "/health")
    (hp : strHasPre req.path "/api/public" = false) :
    (req.referer = "" ∧ req.origin = "" → refererCheck allowed req = .next)
    ∧ (req.referer ≠ "" ∨ req.origin ≠ "" →
        refererCheck allowed req =
          (if allowed.any (fun d => strHasPre req.referer d || req.origin == d)
           then .next else .reject 403)) := by
  constructor
  · intro hboth
    unfold refererCheck
    simp [hm, hh, hp, hboth.1, hboth.2]
  · intro hpresent
    unfold refererCheck
    rw [if_neg hm, if_neg (by simp [hh, hp]), if_neg (by tauto)]
    by_cases hv : allowed.any (fun d => strHasPre req.referer d || req.origin == d)
    · simp [hv]
    · simp only [eq_self_iff_true]
      rw [if_pos ⟨by simpa using hv, hpresent⟩, if_neg (by simp [hv])]

/-- C9 witness: concrete allow-set and requests — headerless pass,
prefix-matching Referer pass, non-matching Referer 403. -/
theorem referer_check_policy_witness :
    (("" = "" ∧ "" = "" →
        refererCheck ["https://a.com"] ⟨"GET", "/api/x", "", ""⟩ = .next)
      ∧ ("" ≠ "" ∨ "" ≠ "" →
          refererCheck ["https://a.com"] ⟨"GET", "/api/x", "", ""⟩ =
            (if ["https://a.com"].any (fun d => strHasPre "" d || "" == d)
             then .next else .reject 403)))
    ∧ (("https://b.com/p" = "" ∧ "" = "" →
        refererCheck ["https://a.com"] ⟨"GET", "/api/x", "https://b.com/p", ""⟩ = .next)
      ∧ ("https://b.com/p" ≠ "" ∨ "" ≠ "" →
          refererCheck ["https://a.com"] ⟨"GET", "/api/x", "https://b.com/p", ""⟩ =
            (if ["https://a.com"].any (fun d => strHasPre "https://b.com/p" d || "" == d)
             then .next else .reject 403))) :=
  ⟨referer_check_policy ["https://a.com"] ⟨"GET", "/api/x", "", ""⟩
      (by decide) (by decide) (by decide),
   referer_check_policy ["https://a.com"] ⟨"GET", "/api/x", "https://b.com/p", ""⟩
      (by decide) (by decide) (by decide)⟩

/-- C10: when a record with the external id is already stored,
`GetOrCreate` returns it with every stored field unchanged and leaves
the database untouched, whatever profile fields the fresh credential
carries; the explicit `SyncFromTelegram` is the operation that
overwrites the stored profile fields. -/
theorem get_or_create_frame (db : UserDB) (tid : Int)
    (un fn ln lc : String) (u : User)
    (hfound : getByTelegramID db tid = some u) :
    getOrCreate db tid un fn ln lc = (u, db)
    ∧ syncFromTelegram db tid un fn ln lc =
        .ok ({ u with username := un, firstName := fn, lastName := ln, languageCode := lc },
          db.map (fun w =>
            if w.id = u.id
            then { u with username := un, firstName := fn, lastName := ln, languageCode := lc }
            else w)) := by
  constructor
  · unfold getOrCreate
    rw [hfound]
  · unfold syncFromTelegram
    rw [hfound]

/-- C10 witness: a stored user (with role `"admin"` and distinct
profile values) is returned unchanged by `getOrCreate` under a
credential carrying different values, while `syncFromTelegram`
overwrites. -/
theorem get_or_create_frame_witness :
    getOrCreate [⟨1, 99, "u", "f", "l", "en", "admin"⟩] 99 "x" "y" "z" "ru" =
      (⟨1, 99, "u", "f", "l", "en", "admin"⟩, [⟨1, 99, "u", "f", "l", "en", "admin"⟩])
    ∧ syncFromTelegram [⟨1, 99, "u", "f", "l", "en", "admin"⟩] 99 "x" "y" "z" "ru" =
        .ok (⟨1, 99, "x", "y", "z", "ru", "admin"⟩,
          [⟨1, 99, "u", "f", "l", "en", "admin"⟩].map (fun w =>
            if w.id = 1 then ⟨1, 99, "x", "y", "z", "ru", "admin"⟩ else w)) :=
  get_or_create_frame [⟨1, 99, "u", "f", "l", "en", "admin"⟩] 99 "x" "y" "z" "ru"
    ⟨1, 99, "u", "f", "l", "en", "admin"⟩ (by decide)

/-- C8: a request whose `X-Telegram-Init-Data` header is exactly
`"dev_mode"` bypasses all cryptographic verification — the outcome is
the same for every verifier behavior and every bot token — and the
fixed identity (Telegram id 12345, username `"devuser"`) is
resolved-or-created and attached as the authenticated user. -/
theorem dev_mode_bypass
    (validate validate2 :
      String → String → Except AuthError (Int × String × String × String × String))
    (sync : Int → String → String → String → String → Except Unit User)
    (botToken botToken2 : String) (db : UserDB) :
    telegramAuthMiddleware validate sync botToken "dev_mode" =
      (match sync 12345 "devuser" "Dev" "User" "en" with
       | .error _ => .reject 500
       | .ok u => .authenticated u)
    ∧ telegramAuthMiddleware validate sync botToken "dev_mode" =
        telegramAuthMiddleware validate2 sync botToken2 "dev_mode"
    ∧ telegramAuthMiddleware validate
        (fun tid un fn ln lc => .ok (syncTelegramUser db tid un fn ln lc).1)
        botToken "dev_mode" =
        .authenticated (getOrCreate db 12345 "devuser" "Dev" "User" "en").1
    ∧ (getOrCreate db 12345 "devuser" "Dev" "User" "en").1.telegramID = 12345 := by
  refine ⟨rfl, rfl, rfl, ?_⟩
  exact getOrCreate_telegramID db 12345 "devuser" "Dev" "User" "en"

end SpaceBackend
